import Mathlib

set_option maxHeartbeats 1000000
set_option maxRecDepth 10000

/-!
Verification of the ghost-chain evaluation core of react-ghostmaker.

The development shallowly embeds the chain evaluator of
src/packages/react-ghostmaker/src/useGhostChain.ts together with the
collaborating primitives it uses (key composition, the cache/suspend layer,
the structural hash and the invalidation entry points).  The collaborators
live in modules that are not part of the excerpted sources (queries.ts,
invalidate.ts, hash.ts, types.ts, context.ts); where a definition embeds one
of those, its doc comment says so and starts with the words
Modelled from the spec.
-/

namespace Ghostmaker

/-- JavaScript runtime values as the chain evaluator observes them.  Functions
are opaque at this level and are represented by an identifier that an `FnEnv`
resolves to behavior.  Arrays and objects are encoded with their own
cons/nil constructors (rather than nested Lean lists) so that structural
recursion and decidable equality stay elementary. -/
inductive JSValue where
  | vNull
  | vUndefined
  | vBool (b : Bool)
  | vNum (n : Int)
  | vStr (s : String)
  | vFunc (fid : Nat)
  | vArrNil
  | vArrCons (head tail : JSValue)
  | vObjNil
  | vObjCons (key : String) (value tail : JSValue)
deriving DecidableEq, Repr

/-- Embeds is.nullOrUndefined (useGhostChain.ts line 66). -/
def isNullOrUndefined : JSValue → Bool
  | .vNull => true
  | .vUndefined => true
  | _ => false

/-- Embeds assert.object's predicate (useGhostChain.ts line 69): a non-primitive
value (object, array or function). -/
def isObject : JSValue → Bool
  | .vObjNil => true
  | .vObjCons _ _ _ => true
  | .vArrNil => true
  | .vArrCons _ _ => true
  | .vFunc _ => true
  | _ => false

/-- Embeds the property read target[propertyName] (useGhostChain.ts line 72);
a missing property reads as undefined, as in JavaScript. -/
def getProp : JSValue → String → JSValue
  | .vObjCons k v t, name => if k = name then v else getProp t name
  | _, _ => .vUndefined

/-- Builds an object value from a list of properties. -/
def mkObj : List (String × JSValue) → JSValue
  | [] => .vObjNil
  | (k, v) :: rest => .vObjCons k v (mkObj rest)

/-- Builds an array value from a list of elements. -/
def mkArr : List JSValue → JSValue
  | [] => .vArrNil
  | v :: rest => .vArrCons v (mkArr rest)

/-- Embeds is.array / assert.array: succeeds exactly on array values, returning
their elements. -/
def arrToList : JSValue → Option (List JSValue)
  | .vArrNil => some []
  | .vArrCons h t => (arrToList t).map (fun l => h :: l)
  | _ => none

/-- Mixing step of the structural hash; kept in a fixed 32-bit range, matching
the spec's fixed-width numeric token. -/
def hmix (a b : Nat) : Nat := (a * 1000003 + b + 1) % 4294967296

/-- Accumulating hash of a character list. -/
def hashChars : List Char → Nat → Nat
  | [], a => a
  | c :: rest, a => hashChars rest (hmix a c.toNat)

/-- Structural hash of a string. -/
def hashString (s : String) : Nat := hashChars s.data 17

/-- Modelled from the spec: hashObject (hash.ts, not among the excerpted
sources) — a deterministic structural hash of an arbitrary value, used to
fingerprint cache keys and to detect target mutation.  Determinism for
structurally equal inputs holds because this is a function of the value. -/
def hashObject : JSValue → Nat
  | .vNull => 2
  | .vUndefined => 3
  | .vBool b => hmix 5 (if b then 1 else 0)
  | .vNum n => hmix 7 (2 * n.natAbs + (if n < 0 then 1 else 0))
  | .vStr s => hmix 11 (hashString s)
  | .vFunc fid => hmix 13 fid
  | .vArrNil => 19
  | .vArrCons h t => hmix (hmix 23 (hashObject h)) (hashObject t)
  | .vObjNil => 29
  | .vObjCons k v t => hmix (hmix (hashString k) (hashObject v)) (hashObject t)

/-- One token of a composed cache key: either the root-identity token or one
segment per non-transform chain item (property name plus args hash). -/
inductive QueryToken where
  | root (ident : Nat)
  | seg (propName : String) (argsHash : Nat)
deriving DecidableEq, Repr

/-- Ordered cache key, exactly the tanstack queryKey array. -/
abbrev QueryKey := List QueryToken

/-- Key-prefix test driving cascading invalidation (tanstack queryKey prefix
matching, as the spec describes invalidate(key)). -/
def keyIsPrefixOf : QueryKey → QueryKey → Bool
  | [], _ => true
  | _ :: _, [] => false
  | x :: xs, y :: ys => if x = y then keyIsPrefixOf xs ys else false

/-- String form of one token, for the joined hash-table key. -/
def tokenStr : QueryToken → String
  | .root n => toString n
  | .seg p h => p ++ (":") ++ toString h

/-- Embeds queryKey.join with a dot separator (useGhostChain.ts line 110). -/
def joinKey : QueryKey → String
  | [] => ""
  | [t] => tokenStr t
  | t :: rest => tokenStr t ++ (".") ++ joinKey rest

/-- One recorded chain step (types.ts GhostChainItem): a property name and,
when the step is a call, its argument list. -/
structure GhostChainItem where
  propName : String
  args : Option (List JSValue)
deriving DecidableEq, Repr

/-- Modelled from the spec: the reserved propertyName sentinel (types.ts
transformFnProp, not among the excerpted sources) that marks a Transform
item. -/
def transformFnProp : String := "__ghost_transform__"

/-- Convenience constructor for a Transform item carrying a mapping function
and an explicit dependency list. -/
def mkTransformItem (fid : Nat) (tdeps : List JSValue) : GhostChainItem :=
  ⟨transformFnProp, some [JSValue.vFunc fid, mkArr tdeps]⟩

/-- Value view of an item's argument list, for hashing it into a key segment. -/
def argsValue : Option (List JSValue) → JSValue
  | none => .vUndefined
  | some l => mkArr l

namespace queries

/-- Modelled from the spec: queries.target (queries.ts, not among the excerpted
sources) — the base key derived from the root's identity descriptor. -/
def target (t : JSValue) : QueryKey := [QueryToken.root (hashObject t)]

/-- Modelled from the spec: queries.chainItem (queries.ts, not among the
excerpted sources) — compose(baseKey, item) appends exactly one segment
derived from the item's propName and a hash of its args. -/
def chainItem (k : QueryKey) (item : GhostChainItem) : QueryKey :=
  k ++ [QueryToken.seg item.propName (hashObject (argsValue item.args))]

/-- Modelled from the spec: queries.ghostChain (queries.ts, not among the
excerpted sources) — the full key for root plus chain, one segment per
non-transform item. -/
def ghostChain (t : JSValue) (chain : List GhostChainItem) : QueryKey :=
  chain.foldl
    (fun k item => if item.propName = transformFnProp then k else chainItem k item)
    (target t)

end queries

/-- Error taxonomy of the evaluator: synchronous assertion failures
(programmer/contract errors) and stored producer rejections. -/
inductive EvalErr where
  | assertArray
  | assertFunction
  | assertObject
  | transformRequiresFn
  | producer (code : Nat)
deriving DecidableEq, Repr

/-- Result of a step or of a producer: a value or a raised/stored error. -/
inductive JSResult where
  | ok (v : JSValue)
  | err (e : EvalErr)
deriving DecidableEq, Repr

/-- One cache entry of the cache/suspend layer: the stored producer result and
a staleness mark. -/
structure CacheEntry where
  result : JSResult
  stale : Bool
deriving DecidableEq, Repr

/-- The cache/suspend layer's store, keyed by QueryKey. -/
abbrev Cache := List (QueryKey × CacheEntry)

/-- Association lookup in the cache. -/
def lookupEntry : Cache → QueryKey → Option CacheEntry
  | [], _ => none
  | (k, e) :: rest, q => if k = q then some e else lookupEntry rest q

/-- Association insert/replace in the cache. -/
def insertEntry : Cache → QueryKey → CacheEntry → Cache
  | [], q, e => [(q, e)]
  | (k, e0) :: rest, q, e =>
    if k = q then (q, e) :: rest else (k, e0) :: insertEntry rest q e

/-- Outcome of readOrProduce: the delivered result, the updated cache, and
whether the producer was invoked. -/
structure ReadOut where
  value : JSResult
  cache : Cache
  invoked : Bool
deriving DecidableEq, Repr

/-- Modelled from the spec: readOrProduce(key, producerFn) of the cache/suspend
layer (realized by tanstack useSuspenseQuery, outside the excerpted sources) —
a fresh entry answers from the cache; otherwise the producer runs exactly once,
its result (value or rejection) is stored and delivered.  The producer argument
is its result; the invoked flag records whether it ran. -/
def readOrProduce (c : Cache) (k : QueryKey) (producer : JSResult) : ReadOut :=
  match lookupEntry c k with
  | some e =>
    if e.stale then ⟨producer, insertEntry c k ⟨producer, false⟩, true⟩
    else ⟨e.result, c, false⟩
  | none => ⟨producer, insertEntry c k ⟨producer, false⟩, true⟩

/-- Modelled from the spec: invalidateGhosts (invalidate.ts, not among the
excerpted sources) — marks the entry for the key and every entry whose key
extends it as stale. -/
def invalidateGhosts (c : Cache) (k : QueryKey) : Cache :=
  match c with
  | [] => []
  | (k0, e0) :: rest =>
    (k0, if keyIsPrefixOf k k0 then ⟨e0.result, true⟩ else e0)
      :: invalidateGhosts rest k

/-- Process-wide table from joined query keys to last observed target hashes
(useGhostChain.ts line 104, targetHashes). -/
abbrev HashTable := List (String × Nat)

/-- Association lookup in the target-hash table. -/
def lookupHash : HashTable → String → Option Nat
  | [], _ => none
  | (s, h) :: rest, q => if s = q then some h else lookupHash rest q

/-- Association insert/replace in the target-hash table. -/
def insertHash : HashTable → String → Nat → HashTable
  | [], q, h => [(q, h)]
  | (s, h0) :: rest, q, h =>
    if s = q then (q, h) :: rest else (s, h0) :: insertHash rest q h

/-- Embeds useTargetAutoInvalidate (useGhostChain.ts lines 104-129): hash the
observed target, compare with the previous hash stored under the joined key,
overwrite the stored hash, and invalidate the key when a previous hash exists
and differs.  The queryClient.invalidateQueries call is modelled from the spec
as invalidateGhosts; effect timing is abstracted to the spec's contract that
the invalidation lands before the key's next read. -/
def useTargetAutoInvalidate (target : JSValue) (queryKey : QueryKey)
    (hashes : HashTable) (cache : Cache) : HashTable × Cache :=
  let joinedQueryKey := joinKey queryKey
  let targetHash := hashObject target
  let prevTargetHash := lookupHash hashes joinedQueryKey
  let needsRefresh :=
    match prevTargetHash with
    | none => false
    | some p => p != targetHash
  let hashes2 := insertHash hashes joinedQueryKey targetHash
  if needsRefresh then (hashes2, invalidateGhosts cache queryKey)
  else (hashes2, cache)

/-- One React useMemo cell as used by the transform branch (useGhostChain.ts
lines 60-63): the last dependency list and the value computed for it.
Reference identity of dependency values is abstracted as structural equality,
which is exact here because values are pure data. -/
structure MemoCell where
  deps : List JSValue
  value : JSValue
deriving DecidableEq, Repr

/-- Mutable process state threaded through an evaluation: the cache/suspend
store, the target-hash table, and observation logs of producer invocations
(function id, receiver, args) and transform-function invocations. -/
structure EvalState where
  cache : Cache
  hashes : HashTable
  calls : List (Nat × JSValue × List JSValue)
  tcalls : List Nat
deriving DecidableEq, Repr

/-- Behavior of the opaque function values: timpl resolves a transform mapping
function (synchronous, one argument), impl resolves a method (receiver and
argument list to a settled result, ok for resolution, err for rejection). -/
structure FnEnv where
  timpl : Nat → JSValue → JSValue
  impl : Nat → JSValue → List JSValue → JSResult

/-- Modelled from the spec: useGhostOptions (types.ts, not among the excerpted
sources) — the evaluation options object with its recognized dependencies
option. -/
structure UseGhostOptions where
  dependencies : Option (List JSValue)
deriving DecidableEq, Repr

/-- Everything one chain step returns: the step result, the advanced context
key, the step's memo cell after the step, and the updated process state. -/
structure StepOut where
  value : JSResult
  key : QueryKey
  memo : Option MemoCell
  st : EvalState
deriving DecidableEq, Repr

/-- Embeds useGhostChainItem (useGhostChain.ts lines 45-102).  The source
spreads options into the useSuspenseQuery config (line 86); the cache/suspend
contract keys caching by queryKey alone and the transform branch never reads
options, so options contributes no behavior here.  Errors of the assert calls
are returned as err values; a returned err aborts the enclosing fold, matching
a thrown exception. -/
def useGhostChainItem (env : FnEnv) (options : UseGhostOptions)
    (target : JSValue) (item : GhostChainItem)
    (ctxKey : QueryKey) (memo : Option MemoCell) (st : EvalState) : StepOut :=
  if item.propName = transformFnProp then
    match item.args with
    | none => ⟨.err .assertArray, ctxKey, memo, st⟩
    | some argsList =>
      match argsList.head? with
      | some (JSValue.vFunc fid) =>
        let depsOpt : Option (List JSValue) :=
          match argsList[1]? with
          | none => some []
          | some v => if isNullOrUndefined v then some [] else arrToList v
        match depsOpt with
        | none => ⟨.err .assertArray, ctxKey, memo, st⟩
        | some tdeps =>
          let memoDeps := target :: tdeps
          match memo with
          | some cell =>
            if cell.deps = memoDeps then ⟨.ok cell.value, ctxKey, memo, st⟩
            else
              let v := env.timpl fid target
              ⟨.ok v, ctxKey, some ⟨memoDeps, v⟩,
                { st with tcalls := st.tcalls ++ [fid] }⟩
          | none =>
            let v := env.timpl fid target
            ⟨.ok v, ctxKey, some ⟨memoDeps, v⟩,
              { st with tcalls := st.tcalls ++ [fid] }⟩
      | _ => ⟨.err .transformRequiresFn, ctxKey, memo, st⟩
  else if isNullOrUndefined target then
    ⟨.ok target, ctxKey, memo, st⟩
  else if !(isObject target) then
    ⟨.err .assertObject, ctxKey, memo, st⟩
  else
    let targetProperty := getProp target item.propName
    let ctxKey2 := queries.chainItem ctxKey item
    match item.args with
    | none => ⟨.ok targetProperty, ctxKey2, memo, st⟩
    | some argsList =>
      match targetProperty with
      | JSValue.vFunc fid =>
        let producer := env.impl fid target argsList
        let r := readOrProduce st.cache ctxKey2 producer
        let calls2 :=
          if r.invoked then st.calls ++ [(fid, target, argsList)] else st.calls
        let hc := useTargetAutoInvalidate target ctxKey2 st.hashes r.cache
        ⟨r.value, ctxKey2, memo, ⟨hc.2, hc.1, calls2, st.tcalls⟩⟩
      | _ => ⟨.err .assertFunction, ctxKey2, memo, st⟩

/-- Result of folding a whole chain: final result, final context key, the memo
cells (one slot per item position), and the final process state. -/
structure RunOut where
  value : JSResult
  key : QueryKey
  memos : List (Option MemoCell)
  st : EvalState
deriving DecidableEq, Repr

/-- Embeds the chain.reduce fold of useGhostChain (useGhostChain.ts lines
30-34), walking the items left to right from the root value; an err result
aborts the fold as a thrown exception does. -/
def runChain (env : FnEnv) (options : UseGhostOptions) :
    List GhostChainItem → JSValue → QueryKey → List (Option MemoCell) →
    EvalState → RunOut
  | [], v, k, memos, st => ⟨.ok v, k, memos, st⟩
  | item :: rest, v, k, memos, st =>
    let s := useGhostChainItem env options v item k (memos.headD none) st
    match s.value with
    | .err e => ⟨.err e, s.key, s.memo :: memos.tail, s.st⟩
    | .ok v2 =>
      let r := runChain env options rest v2 s.key memos.tail s.st
      ⟨r.value, r.key, s.memo :: r.memos, r.st⟩

/-- Embeds useGhostChain (useGhostChain.ts lines 19-43): start the context key
at the root key and fold the chain. -/
def useGhostChain (env : FnEnv) (target : JSValue) (chain : List GhostChainItem)
    (options : UseGhostOptions) (memos : List (Option MemoCell))
    (st : EvalState) : RunOut :=
  runChain env options chain target (queries.target target) memos st

/-- Embeds the invalidate() closure returned by useGhostChain (useGhostChain.ts
lines 36-37): it delegates to invalidateGhosts at the full chain key. -/
def ghostChainInvalidate (target : JSValue) (chain : List GhostChainItem)
    (c : Cache) : Cache :=
  invalidateGhosts c (queries.ghostChain target chain)

/-- Modelled from the spec: the per-key lifecycle of the cache/suspend layer
under concurrent evaluation contexts — no fetch yet, a single in-flight
producer invocation with suspended waiters, or a resolved entry. -/
inductive KeyPhase where
  | idle
  | inflight (waiters : Nat)
  | resolved (r : JSResult)
deriving DecidableEq, Repr

/-- Per-key concurrency state: the phase and how often the underlying producer
has been invoked. -/
structure SuspendState where
  phase : KeyPhase
  producerCalls : Nat
deriving DecidableEq, Repr

/-- Modelled from the spec: one evaluation context requests the key before
resolution — an idle key starts exactly one producer invocation, a key with an
in-flight invocation attaches the caller to it, a resolved key answers without
producing. -/
def request : SuspendState → SuspendState
  | ⟨.idle, n⟩ => ⟨.inflight 1, n + 1⟩
  | ⟨.inflight w, n⟩ => ⟨.inflight (w + 1), n⟩
  | ⟨.resolved r, n⟩ => ⟨.resolved r, n⟩

/-- N successive concurrent requests for the key. -/
def requestN : Nat → SuspendState → SuspendState
  | 0, s => s
  | n + 1, s => requestN n (request s)

/-- Modelled from the spec: the single in-flight invocation resolves with
result r and every suspended waiter is delivered that same result; returns the
new state and the list of delivered results. -/
def resolveInflight (s : SuspendState) (r : JSResult) :
    SuspendState × List JSResult :=
  match s.phase with
  | .inflight w => (⟨.resolved r, s.producerCalls⟩, List.replicate w r)
  | _ => (s, [])

/-- Empty process state, the starting point of the concrete runs below. -/
def st0 : EvalState := ⟨[], [], [], []⟩

/-- Options value with no dependencies, as when the caller passes none. -/
def noOptions : UseGhostOptions := ⟨none⟩

/-- Concrete detailed-customer object: getName is a method (function id 1). -/
def exCustomerObj : JSValue := mkObj [(("getName"), .vFunc 1)]

/-- Concrete project object: findDetailed (id 2) and getDetailed (id 3) are
methods, customer is a plain data property. -/
def exProjObj : JSValue :=
  mkObj [(("findDetailed"), .vFunc 2), (("getDetailed"), .vFunc 3),
    (("customer"), exCustomerObj), (("size"), .vNum 4)]

/-- Concrete function behavior: transform id 0 maps anything to the customer
object; method 1 resolves a string, method 2 resolves undefined (a
legitimately-absent lookup), method 3 resolves the customer object. -/
def exEnv : FnEnv :=
  ⟨fun fid _ => if fid = 0 then exCustomerObj else JSValue.vUndefined,
   fun fid _ _ =>
     if fid = 1 then .ok (.vStr ("Customer C1"))
     else if fid = 3 then .ok exCustomerObj
     else .ok .vUndefined⟩

/-- Chain for the C2 counterexample: a property hop, then a transform whose
mapping function yields a (non-nullish) object, then a method call on it. -/
def exC2Chain : List GhostChainItem :=
  [⟨("p"), none⟩, mkTransformItem 0 [], ⟨("getName"), some []⟩]

/-- Chain for the C5 counterexample: an async lookup that resolves to a nullish
value, then a property hop (which the evaluator skips on nullish). -/
def exC5Chain : List GhostChainItem :=
  [⟨("findDetailed"), some []⟩, ⟨("customer"), none⟩]

/-- Concrete keys for the invalidation witnesses: a root key, a one-segment
extension of it, and an unrelated root key. -/
def exKeyRoot : QueryKey := [QueryToken.root 1]

/-- Extension of exKeyRoot by one segment. -/
def exKeyChild : QueryKey := exKeyRoot ++ [QueryToken.seg ("getDetailed") 5]

/-- Key that does not extend exKeyRoot. -/
def exKeyOther : QueryKey := [QueryToken.root 2]

/-- Concrete cache with fresh entries under all three example keys. -/
def exCache : Cache :=
  [(exKeyRoot, ⟨.ok (.vStr ("root")), false⟩),
   (exKeyChild, ⟨.ok (.vStr ("child")), false⟩),
   (exKeyOther, ⟨.ok (.vStr ("other")), false⟩)]

/-- Two structurally different observed targets for the change detector. -/
def exTargetA : JSValue := mkObj [(("x"), .vNum 1)]

/-- Structurally different counterpart of exTargetA. -/
def exTargetB : JSValue := mkObj [(("x"), .vNum 2)]

/-- Process state whose cache holds a stored producer rejection (error code 7)
under the key of a getDetailed call composed from exKeyRoot. -/
def exErrState : EvalState :=
  ⟨[(queries.chainItem exKeyRoot ⟨("getDetailed"), some []⟩,
      ⟨.err (.producer 7), false⟩)], [], [], []⟩

theorem isNullOrUndefined_mkArr (l : List JSValue) :
    isNullOrUndefined (mkArr l) = false := by
  cases l <;> rfl

theorem arrToList_mkArr (l : List JSValue) : arrToList (mkArr l) = some l := by
  induction l with
  | nil => rfl
  | cons h t ih => simp [mkArr, arrToList, ih]

theorem step_nullish (env : FnEnv) (o : UseGhostOptions) (target : JSValue)
    (item : GhostChainItem) (k : QueryKey) (memo : Option MemoCell)
    (st : EvalState)
    (hpn : item.propName ≠ transformFnProp)
    (hnn : isNullOrUndefined target = true) :
    useGhostChainItem env o target item k memo st = ⟨.ok target, k, memo, st⟩ := by
  simp [useGhostChainItem, hpn, hnn]

theorem step_transform (env : FnEnv) (o : UseGhostOptions) (target : JSValue)
    (fid : Nat) (tdeps : List JSValue) (k : QueryKey) (memo : Option MemoCell)
    (st : EvalState) :
    useGhostChainItem env o target (mkTransformItem fid tdeps) k memo st =
      match memo with
      | some cell =>
        if cell.deps = target :: tdeps then ⟨.ok cell.value, k, memo, st⟩
        else
          ⟨.ok (env.timpl fid target), k,
            some ⟨target :: tdeps, env.timpl fid target⟩,
            { st with tcalls := st.tcalls ++ [fid] }⟩
      | none =>
        ⟨.ok (env.timpl fid target), k,
          some ⟨target :: tdeps, env.timpl fid target⟩,
          { st with tcalls := st.tcalls ++ [fid] }⟩ := by
  cases memo with
  | none =>
    simp [useGhostChainItem, mkTransformItem, isNullOrUndefined_mkArr,
      arrToList_mkArr]
  | some cell =>
    by_cases hd : cell.deps = target :: tdeps <;>
      simp [useGhostChainItem, mkTransformItem, isNullOrUndefined_mkArr,
        arrToList_mkArr, hd]

theorem step_propertyHop (env : FnEnv) (o : UseGhostOptions) (target : JSValue)
    (pn : String) (k : QueryKey) (memo : Option MemoCell) (st : EvalState)
    (hpn : pn ≠ transformFnProp)
    (hnn : isNullOrUndefined target = false)
    (hobj : isObject target = true) :
    useGhostChainItem env o target ⟨pn, none⟩ k memo st
      = ⟨.ok (getProp target pn), queries.chainItem k ⟨pn, none⟩, memo, st⟩ := by
  simp [useGhostChainItem, hpn, hnn, hobj]

theorem step_asyncCall (env : FnEnv) (o : UseGhostOptions) (target : JSValue)
    (pn : String) (argsList : List JSValue) (fid : Nat) (k : QueryKey)
    (memo : Option MemoCell) (st : EvalState)
    (hpn : pn ≠ transformFnProp)
    (hnn : isNullOrUndefined target = false)
    (hobj : isObject target = true)
    (hprop : getProp target pn = .vFunc fid) :
    useGhostChainItem env o target ⟨pn, some argsList⟩ k memo st =
      ⟨(readOrProduce st.cache (queries.chainItem k ⟨pn, some argsList⟩)
          (env.impl fid target argsList)).value,
        queries.chainItem k ⟨pn, some argsList⟩, memo,
        ⟨(useTargetAutoInvalidate target
            (queries.chainItem k ⟨pn, some argsList⟩) st.hashes
            (readOrProduce st.cache (queries.chainItem k ⟨pn, some argsList⟩)
              (env.impl fid target argsList)).cache).2,
          (useTargetAutoInvalidate target
            (queries.chainItem k ⟨pn, some argsList⟩) st.hashes
            (readOrProduce st.cache (queries.chainItem k ⟨pn, some argsList⟩)
              (env.impl fid target argsList)).cache).1,
          if (readOrProduce st.cache (queries.chainItem k ⟨pn, some argsList⟩)
              (env.impl fid target argsList)).invoked
          then st.calls ++ [(fid, target, argsList)] else st.calls,
          st.tcalls⟩⟩ := by
  simp [useGhostChainItem, hpn, hnn, hobj, hprop]

theorem step_nonCallable (env : FnEnv) (o : UseGhostOptions) (target : JSValue)
    (pn : String) (argsList : List JSValue) (k : QueryKey)
    (memo : Option MemoCell) (st : EvalState)
    (hpn : pn ≠ transformFnProp)
    (hnn : isNullOrUndefined target = false)
    (hobj : isObject target = true)
    (hprop : ∀ fid, getProp target pn ≠ .vFunc fid) :
    useGhostChainItem env o target ⟨pn, some argsList⟩ k memo st
      = ⟨.err .assertFunction, queries.chainItem k ⟨pn, some argsList⟩,
          memo, st⟩ := by
  cases hgp : getProp target pn <;>
    simp [useGhostChainItem, hpn, hnn, hobj, hgp]
  exact absurd hgp (hprop _)

theorem step_transform_key (env : FnEnv) (o : UseGhostOptions)
    (target : JSValue) (item : GhostChainItem) (k : QueryKey)
    (memo : Option MemoCell) (st : EvalState)
    (hpn : item.propName = transformFnProp) :
    (useGhostChainItem env o target item k memo st).key = k := by
  obtain ⟨pn, args⟩ := item
  simp only [GhostChainItem.propName] at hpn
  subst hpn
  simp only [useGhostChainItem, if_pos]
  repeat' split
  all_goals rfl

theorem step_key_advance (env : FnEnv) (o : UseGhostOptions)
    (target : JSValue) (item : GhostChainItem) (k : QueryKey)
    (memo : Option MemoCell) (st : EvalState)
    (hpn : item.propName ≠ transformFnProp)
    (hnn : isNullOrUndefined target = false)
    (hobj : isObject target = true) :
    (useGhostChainItem env o target item k memo st).key
      = queries.chainItem k item := by
  obtain ⟨pn, args⟩ := item
  simp only [GhostChainItem.propName] at hpn
  cases args with
  | none => simp [useGhostChainItem, hpn, hnn, hobj]
  | some argsList =>
    cases hgp : getProp target pn <;>
      simp [useGhostChainItem, hpn, hnn, hobj, hgp]

theorem keyIsPrefixOf_refl (k : QueryKey) : keyIsPrefixOf k k = true := by
  induction k with
  | nil => rfl
  | cons x xs ih => simp [keyIsPrefixOf, ih]

theorem lookupEntry_invalidateGhosts (c : Cache) (k q : QueryKey) :
    lookupEntry (invalidateGhosts c k) q =
      (lookupEntry c q).map
        (fun e => if keyIsPrefixOf k q then ⟨e.result, true⟩ else e) := by
  induction c with
  | nil => simp [invalidateGhosts, lookupEntry]
  | cons p rest ih =>
    obtain ⟨k0, e0⟩ := p
    by_cases hk : k0 = q
    · subst hk
      cases hp : keyIsPrefixOf k k0 <;>
        simp [invalidateGhosts, lookupEntry, hp]
    · cases hp : keyIsPrefixOf k k0 <;>
        simp [invalidateGhosts, lookupEntry, hp, hk, ih]

theorem readOrProduce_invalidateGhosts_extension (c : Cache) (k q : QueryKey)
    (p : JSResult) (hpre : keyIsPrefixOf k q = true) :
    (readOrProduce (invalidateGhosts c k) q p).invoked = true ∧
    (readOrProduce (invalidateGhosts c k) q p).value = p := by
  have h := lookupEntry_invalidateGhosts c k q
  cases hc : lookupEntry c q with
  | none => rw [hc] at h; simp [readOrProduce, h]
  | some e => rw [hc] at h; simp [hpre] at h; simp [readOrProduce, h]

theorem lookupHash_insertHash (hs : HashTable) (q : String) (h : Nat) :
    lookupHash (insertHash hs q h) q = some h := by
  induction hs with
  | nil => simp [insertHash, lookupHash]
  | cons p rest ih =>
    obtain ⟨s, h0⟩ := p
    by_cases hsq : s = q
    · subst hsq; simp [insertHash, lookupHash]
    · simp [insertHash, lookupHash, hsq, ih]

/-- Claim C1: for every cached key K, invoking invalidation on K (the
evaluation result's invalidate() closure, invalidateByChain and
invalidateByKey all delegate to invalidateGhosts) marks the entry for K and
every previously-cached key extending K as stale, so a subsequent
readOrProduce for any of those keys re-invokes its producer; every
previously-cached key that is not an extension of K keeps its entry
unchanged. -/
theorem C1_prefix_cascade_invalidation (c : Cache) (k q : QueryKey)
    (e : CacheEntry) (p : JSResult) :
    (lookupEntry c q = some e → keyIsPrefixOf k q = true →
      lookupEntry (invalidateGhosts c k) q = some ⟨e.result, true⟩ ∧
      (readOrProduce (invalidateGhosts c k) q p).invoked = true ∧
      (readOrProduce (invalidateGhosts c k) q p).value = p) ∧
    (keyIsPrefixOf k q = false →
      lookupEntry (invalidateGhosts c k) q = lookupEntry c q) ∧
    (∀ t chain, ghostChainInvalidate t chain c
        = invalidateGhosts c (queries.ghostChain t chain)) := by
  refine ⟨fun he hpre => ?_, fun hnp => ?_, fun t chain => rfl⟩
  · have h := lookupEntry_invalidateGhosts c k q
    rw [he] at h
    simp [hpre] at h
    exact ⟨h, (readOrProduce_invalidateGhosts_extension c k q p hpre).1,
      (readOrProduce_invalidateGhosts_extension c k q p hpre).2⟩
  · have h := lookupEntry_invalidateGhosts c k q
    simp [hnp] at h
    exact h

/-- Witness for C1 at the concrete example cache: invalidating the root key
marks its own entry and the child entry stale, a subsequent readOrProduce on
the child key re-invokes the producer, and the unrelated key is unaffected. -/
theorem C1_prefix_cascade_invalidation_witness :
    (lookupEntry exCache exKeyChild = some ⟨.ok (.vStr ("child")), false⟩) ∧
    (keyIsPrefixOf exKeyRoot exKeyChild = true) ∧
    (lookupEntry (invalidateGhosts exCache exKeyRoot) exKeyChild
        = some ⟨.ok (.vStr ("child")), true⟩) ∧
    ((readOrProduce (invalidateGhosts exCache exKeyRoot) exKeyChild
        (.ok (.vStr ("fresh")))).invoked = true) ∧
    (keyIsPrefixOf exKeyRoot exKeyOther = false) ∧
    (lookupEntry (invalidateGhosts exCache exKeyRoot) exKeyOther
        = lookupEntry exCache exKeyOther) := by
  have h1 := (C1_prefix_cascade_invalidation exCache exKeyRoot exKeyChild
    ⟨.ok (.vStr ("child")), false⟩ (.ok (.vStr ("fresh")))).1
    (by decide) (by decide)
  have h2 := (C1_prefix_cascade_invalidation exCache exKeyRoot exKeyOther
    ⟨.ok (.vStr ("other")), false⟩ (.ok (.vStr ("fresh")))).2.1
    (by decide)
  exact ⟨by decide, by decide, h1.1, h1.2.1, by decide, h2⟩

theorem useTargetAutoInvalidate_fst (target : JSValue) (k : QueryKey)
    (hs : HashTable) (c : Cache) :
    (useTargetAutoInvalidate target k hs c).1
      = insertHash hs (joinKey k) (hashObject target) := by
  simp only [useTargetAutoInvalidate]
  split <;> rfl

theorem useTargetAutoInvalidate_snd (target : JSValue) (k : QueryKey)
    (hs : HashTable) (c : Cache) :
    (useTargetAutoInvalidate target k hs c).2
      = match lookupHash hs (joinKey k) with
        | none => c
        | some p =>
          if p = hashObject target then c else invalidateGhosts c k := by
  cases h0 : lookupHash hs (joinKey k) with
  | none => simp [useTargetAutoInvalidate, h0]
  | some p =>
    by_cases hp : p = hashObject target <;>
      simp [useTargetAutoInvalidate, h0, hp, bne_iff_ne]

/-- Claim C3: checkAndRecord (the body of useTargetAutoInvalidate) hashes the
observed object and invalidates the key exactly when a previously stored hash
exists for the key and differs from the new hash: the first observation never
invalidates, re-observing a structurally identical object leaves the cache
untouched, a differing hash invalidates the key so that the next read of that
key re-invokes its producer, and the stored hash is overwritten in every
case. -/
theorem C3_checkAndRecord (target : JSValue) (k : QueryKey)
    (hs : HashTable) (c : Cache) :
    (lookupHash (useTargetAutoInvalidate target k hs c).1 (joinKey k)
        = some (hashObject target)) ∧
    (lookupHash hs (joinKey k) = none →
      (useTargetAutoInvalidate target k hs c).2 = c) ∧
    (lookupHash hs (joinKey k) = some (hashObject target) →
      (useTargetAutoInvalidate target k hs c).2 = c) ∧
    (∀ prev, lookupHash hs (joinKey k) = some prev →
      prev ≠ hashObject target →
      (useTargetAutoInvalidate target k hs c).2 = invalidateGhosts c k) ∧
    (∀ prev p, lookupHash hs (joinKey k) = some prev →
      prev ≠ hashObject target →
      (readOrProduce (useTargetAutoInvalidate target k hs c).2 k p).invoked
          = true ∧
      (readOrProduce (useTargetAutoInvalidate target k hs c).2 k p).value
          = p) ∧
    (∀ c2, (useTargetAutoInvalidate target k
        (useTargetAutoInvalidate target k hs c).1 c2).2 = c2) := by
  refine ⟨?_, fun h0 => ?_, fun hsame => ?_, fun prev hp hne => ?_,
    fun prev p hp hne => ?_, fun c2 => ?_⟩
  · rw [useTargetAutoInvalidate_fst]
    exact lookupHash_insertHash hs (joinKey k) (hashObject target)
  · rw [useTargetAutoInvalidate_snd, h0]
  · rw [useTargetAutoInvalidate_snd, hsame]
    simp
  · rw [useTargetAutoInvalidate_snd, hp]
    simp [hne]
  · have hinv : (useTargetAutoInvalidate target k hs c).2
        = invalidateGhosts c k := by
      rw [useTargetAutoInvalidate_snd, hp]
      simp [hne]
    rw [hinv]
    exact readOrProduce_invalidateGhosts_extension c k k p (keyIsPrefixOf_refl k)
  · rw [useTargetAutoInvalidate_snd, useTargetAutoInvalidate_fst,
      lookupHash_insertHash]
    simp

/-- Witness for C3 at concrete inputs: the first observation of exTargetA
records its hash without invalidating; re-observing exTargetA changes nothing;
observing the structurally different exTargetB afterwards invalidates the key,
and the next read re-invokes the producer. -/
theorem C3_checkAndRecord_witness :
    (lookupHash (useTargetAutoInvalidate exTargetA exKeyRoot [] exCache).1
        (joinKey exKeyRoot) = some (hashObject exTargetA)) ∧
    ((useTargetAutoInvalidate exTargetA exKeyRoot [] exCache).2 = exCache) ∧
    ((useTargetAutoInvalidate exTargetA exKeyRoot
        (useTargetAutoInvalidate exTargetA exKeyRoot [] exCache).1 exCache).2
      = exCache) ∧
    ((useTargetAutoInvalidate exTargetB exKeyRoot
        (useTargetAutoInvalidate exTargetA exKeyRoot [] exCache).1 exCache).2
      = invalidateGhosts exCache exKeyRoot) ∧
    ((readOrProduce
        (useTargetAutoInvalidate exTargetB exKeyRoot
          (useTargetAutoInvalidate exTargetA exKeyRoot [] exCache).1 exCache).2
        exKeyRoot (.ok (.vStr ("fresh")))).invoked = true) := by
  refine ⟨(C3_checkAndRecord exTargetA exKeyRoot [] exCache).1,
    (C3_checkAndRecord exTargetA exKeyRoot [] exCache).2.1 (by decide),
    (C3_checkAndRecord exTargetA exKeyRoot
      (useTargetAutoInvalidate exTargetA exKeyRoot [] exCache).1 exCache).2.2.1
      (by decide),
    (C3_checkAndRecord exTargetB exKeyRoot
      (useTargetAutoInvalidate exTargetA exKeyRoot [] exCache).1 exCache).2.2.2.1
      (hashObject exTargetA) (by decide) (by decide),
    ((C3_checkAndRecord exTargetB exKeyRoot
      (useTargetAutoInvalidate exTargetA exKeyRoot [] exCache).1 exCache).2.2.2.2.1
      (hashObject exTargetA) (.ok (.vStr ("fresh"))) (by decide) (by decide)).1⟩

theorem requestN_inflight (m w n : Nat) :
    requestN m ⟨.inflight w, n⟩ = ⟨.inflight (w + m), n⟩ := by
  induction m generalizing w with
  | zero => simp [requestN]
  | succ m ih =>
    have h : w + 1 + m = w + (m + 1) := by omega
    simp [requestN, request, ih, h]

/-- Claim C4: N concurrent evaluation contexts requesting a key before its
producer resolves cause exactly one invocation of the underlying producer; all
N callers attach to the single in-flight invocation and, at resolution, each
receives its result. -/
theorem C4_at_most_one_producer (n : Nat) (r : JSResult) (hn : 1 ≤ n) :
    ((requestN n ⟨.idle, 0⟩).producerCalls = 1) ∧
    ((requestN n ⟨.idle, 0⟩).phase = .inflight n) ∧
    ((resolveInflight (requestN n ⟨.idle, 0⟩) r).2 = List.replicate n r) := by
  obtain ⟨m, rfl⟩ : ∃ m, n = m + 1 := ⟨n - 1, by omega⟩
  have h1 : requestN (m + 1) ⟨.idle, 0⟩ = ⟨.inflight (1 + m), 1⟩ := by
    simp [requestN, request, requestN_inflight]
  have h2 : 1 + m = m + 1 := by omega
  rw [h1, h2]
  exact ⟨rfl, rfl, rfl⟩

/-- Witness for C4 with three concurrent callers: one producer invocation,
three attached waiters, and all three receive the resolved result. -/
theorem C4_at_most_one_producer_witness :
    ((requestN 3 ⟨.idle, 0⟩).producerCalls = 1) ∧
    ((requestN 3 ⟨.idle, 0⟩).phase = .inflight 3) ∧
    ((resolveInflight (requestN 3 ⟨.idle, 0⟩) (.ok (.vStr ("v")))).2
      = List.replicate 3 (.ok (.vStr ("v")))) :=
  C4_at_most_one_producer 3 (.ok (.vStr ("v"))) (by decide)

/-- Claim C2 (amended): every non-transform ChainItem evaluated while the
current value is nullish is skipped — the nullish value is returned unchanged
as the new current value, no producer is invoked and the process state and
context key are untouched — and, provided no Transform item occurs among the
subsequent items, every subsequent property/method step of the chain resolves
to that same nullish value without any further underlying calls. -/
theorem C2_nullish_short_circuit (env : FnEnv) (o : UseGhostOptions)
    (target : JSValue) (items : List GhostChainItem) (k : QueryKey)
    (memos : List (Option MemoCell)) (st : EvalState)
    (hnull : isNullOrUndefined target = true)
    (hnt : ∀ it ∈ items, it.propName ≠ transformFnProp) :
    (runChain env o items target k memos st).value = .ok target ∧
    (runChain env o items target k memos st).key = k ∧
    (runChain env o items target k memos st).st = st := by
  revert hnt
  induction items generalizing k memos st with
  | nil => intro hnt; exact ⟨rfl, rfl, rfl⟩
  | cons item rest ih =>
    intro hnt
    have hstep := step_nullish env o target item k (memos.headD none) st
      (hnt item (by simp)) hnull
    obtain ⟨h1, h2, h3⟩ := ih k memos.tail st
      (fun it hit => hnt it (by simp [hit]))
    simp only [runChain, hstep]
    exact ⟨h1, h2, h3⟩

/-- Counterexample to claim C2 as stated: in the chain exC2Chain the first
item is skipped on the nullish root, but an intervening Transform item yields
a non-nullish object, after which the subsequent method step resolves to a
non-nullish value and invokes an underlying call — so not every subsequent
property/method step after a nullish skip resolves nullish without calls. -/
theorem C2_nullish_short_circuit_counterexample :
    ((useGhostChain exEnv JSValue.vNull exC2Chain noOptions
        [none, none, none] st0).value ≠ .ok JSValue.vNull) ∧
    ((useGhostChain exEnv JSValue.vNull exC2Chain noOptions
        [none, none, none] st0).st.calls ≠ []) := by
  exact ⟨by decide, by decide⟩

/-- Witness for C2 (amended) on a concrete transform-free chain evaluated from
undefined: the result stays undefined and the state is untouched. -/
theorem C2_nullish_short_circuit_witness :
    (isNullOrUndefined JSValue.vUndefined = true) ∧
    ((runChain exEnv noOptions exC5Chain JSValue.vUndefined exKeyRoot
        [none, none] st0).value = .ok JSValue.vUndefined) ∧
    ((runChain exEnv noOptions exC5Chain JSValue.vUndefined exKeyRoot
        [none, none] st0).key = exKeyRoot) ∧
    ((runChain exEnv noOptions exC5Chain JSValue.vUndefined exKeyRoot
        [none, none] st0).st = st0) := by
  have h := C2_nullish_short_circuit exEnv noOptions JSValue.vUndefined
    exC5Chain exKeyRoot [none, none] st0 (by decide) (by decide)
  exact ⟨by decide, h.1, h.2.1, h.2.2⟩

/-- Claim C5 (amended): a non-transform ChainItem evaluated while the current
value is a non-nullish object appends exactly one token, derived from its
propName and the hash of its args, to the QueryKey — a strict extension of
the key before the step; a Transform item never advances the key; and a
non-transform item evaluated while the current value is nullish is skipped
and advances no key either. -/
theorem C5_key_composition (env : FnEnv) (o : UseGhostOptions)
    (target : JSValue) (item : GhostChainItem) (k : QueryKey)
    (memo : Option MemoCell) (st : EvalState) :
    (item.propName ≠ transformFnProp → isNullOrUndefined target = false →
      isObject target = true →
      (useGhostChainItem env o target item k memo st).key
        = k ++ [QueryToken.seg item.propName
            (hashObject (argsValue item.args))]) ∧
    (item.propName = transformFnProp →
      (useGhostChainItem env o target item k memo st).key = k) ∧
    (item.propName ≠ transformFnProp → isNullOrUndefined target = true →
      (useGhostChainItem env o target item k memo st).key = k) := by
  refine ⟨fun hpn hnn hobj => ?_, fun hpn => ?_, fun hpn hnull => ?_⟩
  · rw [step_key_advance env o target item k memo st hpn hnn hobj]
    rfl
  · exact step_transform_key env o target item k memo st hpn
  · rw [step_nullish env o target item k memo st hpn hnull]

/-- Counterexample to claim C5 as stated: evaluating exC5Chain against the
concrete project object, the async step resolves to a nullish value and the
following property item is skipped without appending its key segment, so the
QueryKey after the two items is not the root token plus one token per
non-transform item (which is what queries.ghostChain composes). -/
theorem C5_key_composition_counterexample :
    (useGhostChain exEnv exProjObj exC5Chain noOptions [none, none] st0).key
      ≠ queries.ghostChain exProjObj exC5Chain := by
  decide

/-- Witness for C5 (amended) at concrete inputs: a method item on an object
appends exactly one segment, a transform item appends none, and a property
item on a nullish value appends none. -/
theorem C5_key_composition_witness :
    ((useGhostChainItem exEnv noOptions exProjObj
        ⟨("getDetailed"), some []⟩ exKeyRoot none st0).key
      = exKeyRoot ++ [QueryToken.seg ("getDetailed")
          (hashObject (argsValue (some [])))]) ∧
    ((useGhostChainItem exEnv noOptions exProjObj
        (mkTransformItem 0 []) exKeyRoot none st0).key = exKeyRoot) ∧
    ((useGhostChainItem exEnv noOptions JSValue.vNull
        ⟨("customer"), none⟩ exKeyRoot none st0).key = exKeyRoot) := by
  refine ⟨(C5_key_composition exEnv noOptions exProjObj
      ⟨("getDetailed"), some []⟩ exKeyRoot none st0).1
      (by decide) (by decide) (by decide),
    (C5_key_composition exEnv noOptions exProjObj
      (mkTransformItem 0 []) exKeyRoot none st0).2.1 (by decide),
    (C5_key_composition exEnv noOptions JSValue.vNull
      ⟨("customer"), none⟩ exKeyRoot none st0).2.2 (by decide) (by decide)⟩

/-- Claim C6: a Transform ChainItem applies the mapping function to the
current value — also when that value is nullish — memoized on the current
value together with the declared dependency values: a fresh memo cell or one
whose dependencies differ invokes the mapping function and records the new
cell, a cell with equal dependencies answers without re-invoking; the result
becomes the step's value, the cache key never advances, and no producer
invocation or cache access occurs (the cache, hash table and call log are
untouched). -/
theorem C6_transform_memoized (env : FnEnv) (o : UseGhostOptions)
    (target : JSValue) (fid : Nat) (tdeps : List JSValue) (k : QueryKey)
    (st : EvalState) :
    (useGhostChainItem env o target (mkTransformItem fid tdeps) k none st
      = ⟨.ok (env.timpl fid target), k,
          some ⟨target :: tdeps, env.timpl fid target⟩,
          { st with tcalls := st.tcalls ++ [fid] }⟩) ∧
    (∀ v, useGhostChainItem env o target (mkTransformItem fid tdeps) k
        (some ⟨target :: tdeps, v⟩) st
      = ⟨.ok v, k, some ⟨target :: tdeps, v⟩, st⟩) ∧
    (∀ d v, d ≠ target :: tdeps →
      useGhostChainItem env o target (mkTransformItem fid tdeps) k
        (some ⟨d, v⟩) st
      = ⟨.ok (env.timpl fid target), k,
          some ⟨target :: tdeps, env.timpl fid target⟩,
          { st with tcalls := st.tcalls ++ [fid] }⟩) := by
  refine ⟨?_, fun v => ?_, fun d v hd => ?_⟩
  · rw [step_transform]
  · rw [step_transform]
    simp
  · rw [step_transform]
    simp [hd]

/-- Witness for C6 with a nullish current value: the transform applies the
mapping function to undefined, a repeated evaluation with the recorded memo
cell does not re-invoke it, and a cell with different dependencies does. -/
theorem C6_transform_memoized_witness :
    (useGhostChainItem exEnv noOptions JSValue.vUndefined
        (mkTransformItem 0 []) exKeyRoot none st0
      = ⟨.ok (exEnv.timpl 0 JSValue.vUndefined), exKeyRoot,
          some ⟨[JSValue.vUndefined], exEnv.timpl 0 JSValue.vUndefined⟩,
          { st0 with tcalls := st0.tcalls ++ [0] }⟩) ∧
    (useGhostChainItem exEnv noOptions JSValue.vUndefined
        (mkTransformItem 0 []) exKeyRoot
        (some ⟨[JSValue.vUndefined], JSValue.vStr ("memoized")⟩) st0
      = ⟨.ok (JSValue.vStr ("memoized")), exKeyRoot,
          some ⟨[JSValue.vUndefined], JSValue.vStr ("memoized")⟩, st0⟩) ∧
    (useGhostChainItem exEnv noOptions JSValue.vUndefined
        (mkTransformItem 0 []) exKeyRoot
        (some ⟨[JSValue.vNull], JSValue.vStr ("memoized")⟩) st0
      = ⟨.ok (exEnv.timpl 0 JSValue.vUndefined), exKeyRoot,
          some ⟨[JSValue.vUndefined], exEnv.timpl 0 JSValue.vUndefined⟩,
          { st0 with tcalls := st0.tcalls ++ [0] }⟩) :=
  ⟨(C6_transform_memoized exEnv noOptions JSValue.vUndefined 0 [] exKeyRoot
      st0).1,
   (C6_transform_memoized exEnv noOptions JSValue.vUndefined 0 [] exKeyRoot
      st0).2.1 (JSValue.vStr ("memoized")),
   (C6_transform_memoized exEnv noOptions JSValue.vUndefined 0 [] exKeyRoot
      st0).2.2 [JSValue.vNull] (JSValue.vStr ("memoized")) (by decide)⟩

/-- Claim C7: when the cache entry for a step's composed key holds a stored
producer rejection, evaluating that step re-raises that same stored error to
the caller without invoking any producer, for every such evaluation; once the
key is invalidated and the producer re-produces successfully, the step yields
the fresh value. -/
theorem C7_producer_error_reraised (env env2 : FnEnv) (o : UseGhostOptions)
    (target : JSValue) (pn : String) (argsList : List JSValue) (fid : Nat)
    (k : QueryKey) (memo : Option MemoCell) (st : EvalState) (code : Nat)
    (v2 : JSValue)
    (hpn : pn ≠ transformFnProp)
    (hnn : isNullOrUndefined target = false)
    (hobj : isObject target = true)
    (hprop : getProp target pn = .vFunc fid)
    (hentry : lookupEntry st.cache (queries.chainItem k ⟨pn, some argsList⟩)
        = some ⟨.err (.producer code), false⟩) :
    ((useGhostChainItem env o target ⟨pn, some argsList⟩ k memo st).value
        = .err (.producer code)) ∧
    ((useGhostChainItem env o target ⟨pn, some argsList⟩ k memo st).st.calls
        = st.calls) ∧
    (env2.impl fid target argsList = .ok v2 →
      (useGhostChainItem env2 o target ⟨pn, some argsList⟩ k memo
        { st with cache := (invalidateGhosts st.cache
            (queries.chainItem k ⟨pn, some argsList⟩)) }).value
        = .ok v2) := by
  have hro : readOrProduce st.cache (queries.chainItem k ⟨pn, some argsList⟩)
      (env.impl fid target argsList)
      = ⟨.err (.producer code), st.cache, false⟩ := by
    simp [readOrProduce, hentry]
  refine ⟨?_, ?_, fun himpl => ?_⟩
  · rw [step_asyncCall env o target pn argsList fid k memo st hpn hnn hobj
      hprop]
    simp [hro]
  · rw [step_asyncCall env o target pn argsList fid k memo st hpn hnn hobj
      hprop]
    simp [hro]
  · rw [step_asyncCall env2 o target pn argsList fid k memo _ hpn hnn hobj
      hprop]
    have h2 := readOrProduce_invalidateGhosts_extension st.cache
      (queries.chainItem k ⟨pn, some argsList⟩)
      (queries.chainItem k ⟨pn, some argsList⟩)
      (env2.impl fid target argsList) (keyIsPrefixOf_refl _)
    rw [himpl] at h2
    simpa [himpl] using h2.2

/-- Witness for C7 at concrete inputs: with a stored rejection under the
getDetailed key, the step re-raises the stored error and logs no call, and
after invalidation a successful re-produce yields the fresh value. -/
theorem C7_producer_error_reraised_witness :
    (lookupEntry exErrState.cache
        (queries.chainItem exKeyRoot ⟨("getDetailed"), some []⟩)
      = some ⟨.err (.producer 7), false⟩) ∧
    ((useGhostChainItem exEnv noOptions exProjObj
        ⟨("getDetailed"), some []⟩ exKeyRoot none exErrState).value
      = .err (.producer 7)) ∧
    ((useGhostChainItem exEnv noOptions exProjObj
        ⟨("getDetailed"), some []⟩ exKeyRoot none exErrState).st.calls
      = exErrState.calls) ∧
    ((useGhostChainItem exEnv noOptions exProjObj
        ⟨("getDetailed"), some []⟩ exKeyRoot none
        { exErrState with cache := (invalidateGhosts exErrState.cache
            (queries.chainItem exKeyRoot ⟨("getDetailed"), some []⟩)) }).value
      = .ok exCustomerObj) := by
  have h := C7_producer_error_reraised exEnv exEnv noOptions exProjObj
    ("getDetailed") [] 3 exKeyRoot none exErrState 7 exCustomerObj
    (by decide) (by decide) (by decide) (by decide) (by decide)
  exact ⟨by decide, h.1, h.2.1, h.2.2 (by decide)⟩

/-- Claim C8: calling-with-args a property of a non-nullish object that is not
callable, and a Transform whose first argument is not a function, each raise a
synchronous error at that step: the step returns the assertion error before
any producer invocation and leaves the entire process state — cache, hash
table and call logs — untouched. -/
theorem C8_contract_errors (env : FnEnv) (o : UseGhostOptions)
    (target : JSValue) (pn : String) (argsList : List JSValue)
    (a0 : JSValue) (argsRest : List JSValue) (k : QueryKey)
    (memo : Option MemoCell) (st : EvalState) :
    (pn ≠ transformFnProp → isNullOrUndefined target = false →
      isObject target = true → (∀ fid, getProp target pn ≠ .vFunc fid) →
      useGhostChainItem env o target ⟨pn, some argsList⟩ k memo st
        = ⟨.err .assertFunction, queries.chainItem k ⟨pn, some argsList⟩,
            memo, st⟩) ∧
    ((∀ fid, a0 ≠ .vFunc fid) →
      useGhostChainItem env o target ⟨transformFnProp, some (a0 :: argsRest)⟩
          k memo st
        = ⟨.err .transformRequiresFn, k, memo, st⟩) := by
  refine ⟨fun hpn hnn hobj hprop =>
    step_nonCallable env o target pn argsList k memo st hpn hnn hobj hprop,
    fun ha0 => ?_⟩
  cases a0
  case vFunc fid => exact absurd rfl (ha0 fid)
  all_goals simp [useGhostChainItem]

/-- Witness for C8 at concrete inputs: calling the numeric size property with
args raises assertFunction, and a transform whose first argument is a string
raises transformRequiresFn; both leave the state unchanged. -/
theorem C8_contract_errors_witness :
    (useGhostChainItem exEnv noOptions exProjObj ⟨("size"), some []⟩
        exKeyRoot none st0
      = ⟨.err .assertFunction,
          queries.chainItem exKeyRoot ⟨("size"), some []⟩, none, st0⟩) ∧
    (useGhostChainItem exEnv noOptions exProjObj
        ⟨transformFnProp, some [JSValue.vStr ("notafunction")]⟩
        exKeyRoot none st0
      = ⟨.err .transformRequiresFn, exKeyRoot, none, st0⟩) := by
  have h := C8_contract_errors exEnv noOptions exProjObj ("size") []
    (JSValue.vStr ("notafunction")) [] exKeyRoot none st0
  have hsz : ∀ fid, getProp exProjObj ("size") ≠ JSValue.vFunc fid := by
    intro fid hcontra
    rw [show getProp exProjObj ("size") = JSValue.vNum 4 from rfl] at hcontra
    exact JSValue.noConfusion hcontra
  have hstr : ∀ fid, JSValue.vStr ("notafunction") ≠ JSValue.vFunc fid :=
    fun fid hcontra => JSValue.noConfusion hcontra
  exact ⟨h.1 (by decide) (by decide) (by decide) hsz, h.2 hstr⟩

/-- Claim C9 (amended): the options argument is spread into the async step's
query configuration only; the memoization of a Transform step is keyed on the
current value together with the dependencies declared on the transform item
itself and is unaffected by the options — evaluating a transform step under
different options values yields identical outcomes, and a memo cell matching
the item-declared dependencies answers without recomputation whatever the
options say. -/
theorem C9_options_not_consulted_by_transform (env : FnEnv)
    (o1 o2 : UseGhostOptions) (target : JSValue) (item : GhostChainItem)
    (k : QueryKey) (memo : Option MemoCell) (st : EvalState)
    (hpn : item.propName = transformFnProp) :
    (useGhostChainItem env o1 target item k memo st
      = useGhostChainItem env o2 target item k memo st) ∧
    (∀ fid tdeps v, item = mkTransformItem fid tdeps →
      useGhostChainItem env o1 target item k (some ⟨target :: tdeps, v⟩) st
        = ⟨.ok v, k, some ⟨target :: tdeps, v⟩, st⟩) := by
  refine ⟨rfl, fun fid tdeps v hitem => ?_⟩
  subst hitem
  rw [step_transform]
  simp

/-- Counterexample to claim C9 as stated: with a memo cell recorded for a
transform step, evaluations under options carrying different dependencies
values produce identical outcomes and neither recomputes the transform — so
supplying different dependency values via options does not change whether the
transform step is recomputed. -/
theorem C9_options_counterexample :
    (useGhostChainItem exEnv ⟨some [JSValue.vNum 1]⟩ JSValue.vNull
        (mkTransformItem 0 []) exKeyRoot
        (some ⟨[JSValue.vNull], JSValue.vStr ("cached")⟩) st0
      = useGhostChainItem exEnv ⟨some [JSValue.vNum 2]⟩ JSValue.vNull
        (mkTransformItem 0 []) exKeyRoot
        (some ⟨[JSValue.vNull], JSValue.vStr ("cached")⟩) st0) ∧
    ((useGhostChainItem exEnv ⟨some [JSValue.vNum 1]⟩ JSValue.vNull
        (mkTransformItem 0 []) exKeyRoot
        (some ⟨[JSValue.vNull], JSValue.vStr ("cached")⟩) st0).st.tcalls
      = []) ∧
    ((useGhostChainItem exEnv ⟨some [JSValue.vNum 1]⟩ JSValue.vNull
        (mkTransformItem 0 []) exKeyRoot
        (some ⟨[JSValue.vNull], JSValue.vStr ("cached")⟩) st0).value
      = .ok (JSValue.vStr ("cached"))) := by
  exact ⟨rfl, by decide, by decide⟩

/-- Witness for C9 (amended) at concrete options differing in their
dependencies: the transform step's outcome is identical and a matching memo
cell answers without recomputation. -/
theorem C9_options_not_consulted_witness :
    (useGhostChainItem exEnv ⟨some [JSValue.vNum 1]⟩ JSValue.vUndefined
        (mkTransformItem 0 []) exKeyRoot none st0
      = useGhostChainItem exEnv ⟨some [JSValue.vNum 2]⟩ JSValue.vUndefined
        (mkTransformItem 0 []) exKeyRoot none st0) ∧
    (useGhostChainItem exEnv ⟨some [JSValue.vNum 1]⟩ JSValue.vUndefined
        (mkTransformItem 0 [])
        exKeyRoot (some ⟨[JSValue.vUndefined], JSValue.vStr ("memo")⟩) st0
      = ⟨.ok (JSValue.vStr ("memo")), exKeyRoot,
          some ⟨[JSValue.vUndefined], JSValue.vStr ("memo")⟩, st0⟩) := by
  have h := C9_options_not_consulted_by_transform exEnv
    ⟨some [JSValue.vNum 1]⟩ ⟨some [JSValue.vNum 2]⟩ JSValue.vUndefined
    (mkTransformItem 0 []) exKeyRoot none st0 (by decide)
  have h2 := C9_options_not_consulted_by_transform exEnv
    ⟨some [JSValue.vNum 1]⟩ ⟨some [JSValue.vNum 2]⟩ JSValue.vUndefined
    (mkTransformItem 0 []) exKeyRoot
    (some ⟨[JSValue.vUndefined], JSValue.vStr ("memo")⟩) st0 (by decide)
  exact ⟨h.1, h2.2 0 [] (JSValue.vStr ("memo")) rfl⟩

/-- Claim C10: a ChainItem with args evaluated against a non-nullish object
whose named property is callable invokes, on a cache miss, that function with
its receiver bound to the pre-call current value and with exactly the item's
recorded args in order, and the resolved result of the call becomes the new
current value. -/
theorem C10_producer_invocation (env : FnEnv) (o : UseGhostOptions)
    (target : JSValue) (pn : String) (argsList : List JSValue) (fid : Nat)
    (k : QueryKey) (memo : Option MemoCell) (st : EvalState) (v : JSValue)
    (hpn : pn ≠ transformFnProp)
    (hnn : isNullOrUndefined target = false)
    (hobj : isObject target = true)
    (hprop : getProp target pn = .vFunc fid)
    (hmiss : lookupEntry st.cache (queries.chainItem k ⟨pn, some argsList⟩)
        = none)
    (himpl : env.impl fid target argsList = .ok v) :
    ((useGhostChainItem env o target ⟨pn, some argsList⟩ k memo st).value
        = .ok v) ∧
    ((useGhostChainItem env o target ⟨pn, some argsList⟩ k memo st).st.calls
        = st.calls ++ [(fid, target, argsList)]) := by
  constructor <;>
    · rw [step_asyncCall env o target pn argsList fid k memo st hpn hnn hobj
        hprop]
      simp only [himpl]
      simp [readOrProduce, hmiss]

/-- Witness for C10 at concrete inputs: calling getDetailed on the project
object with an empty cache invokes function 3 with the project object as
receiver and empty args, and the step's value is the resolved customer
object. -/
theorem C10_producer_invocation_witness :
    ((useGhostChainItem exEnv noOptions exProjObj
        ⟨("getDetailed"), some []⟩ exKeyRoot none st0).value
      = .ok exCustomerObj) ∧
    ((useGhostChainItem exEnv noOptions exProjObj
        ⟨("getDetailed"), some []⟩ exKeyRoot none st0).st.calls
      = st0.calls ++ [(3, exProjObj, [])]) := by
  exact C10_producer_invocation exEnv noOptions exProjObj ("getDetailed") []
    3 exKeyRoot none st0 exCustomerObj (by decide) (by decide) (by decide)
    (by decide) (by decide) (by decide)

end Ghostmaker
